import Mathlib

set_option maxHeartbeats 1000000

/-!
Verification of the BinDiff core slice: the SQLite persistence adapter
(src/sqlite.cc), the prime basic-block matching step
(src/flow_graph_match_basic_block_prime.h), and the matching-run model
described by the design document. Parts of the program that are declared but
not implemented in this slice (the matching driver, the FixedPoint container,
FlowGraph::GetPrime and FindFixedPointsBasicBlockInternal) are modelled from
the design document and are marked as such in their doc comments.
-/

namespace BinDiff

/-! ## SQLite persistence adapter (src/sqlite.cc)

The adapter wraps the sqlite3 C API. We model the C API results that each
adapter function consumes (result code of sqlite3_open / sqlite3_prepare_v2 /
sqlite3_step, and the handle stored by sqlite3_open) as explicit inputs, and
model a thrown std::runtime_error as an error value. Each adapter operation
consumes exactly one underlying API-call result and returns immediately on
failure; there is no retry path. -/

/-- sqlite3 result code SQLITE_OK. -/
def SQLITE_OK : Int := 0

/-- sqlite3 result code SQLITE_ROW. -/
def SQLITE_ROW : Int := 100

/-- sqlite3 result code SQLITE_DONE. -/
def SQLITE_DONE : Int := 101

/-- The distinct std::runtime_error throw sites of src/sqlite.cc. -/
inductive SqliteError where
  | alreadyOpen
  | openFailed
  | openNullHandle
  | prepareFailed
  | stepFailed
deriving DecidableEq, Repr

/-- Result of one call to sqlite3_open: the returned result code and the
handle stored into the out-parameter (a null handle is modelled as none). -/
structure OpenResult where
  rc : Int
  handle : Option Nat
deriving DecidableEq, Repr

/-- SqliteDatabase::Connect (src/sqlite.cc lines 38 to 54). The field
database_ is modelled as an Option Nat (none is a null pointer). The function
returns the new value of database_ together with the error thrown, if any.
Control flow follows the source: if database_ is non-null it throws
"database already open" leaving the member untouched; if sqlite3_open does
not return SQLITE_OK it closes, nulls the member and throws; if the member
is still null after a successful open it throws. -/
def Connect (database_ : Option Nat) (r : OpenResult) :
    Option Nat × Option SqliteError :=
  if database_.isSome then
    (database_, some SqliteError.alreadyOpen)
  else if r.rc ≠ SQLITE_OK then
    (none, some SqliteError.openFailed)
  else if r.handle.isNone then
    (r.handle, some SqliteError.openNullHandle)
  else
    (r.handle, none)

/-- Result of one call to sqlite3_prepare_v2: result code and the prepared
statement handle stored into the out-parameter. -/
structure PrepareResult where
  rc : Int
  stmt : Nat
deriving DecidableEq, Repr

/-- Values passed to the sqlite3_bind_* family. The double payload is not
modelled (floating point); only the bind position semantics matter here. -/
inductive SqliteValue where
  | vint (value : Int)
  | vint64 (value : Int)
  | vdouble
  | vtext (value : String)
  | vnull
deriving DecidableEq, Repr

/-- State of a SqliteStatement (src/sqlite.cc): the running parameter_ and
column_ counters, the got_data_ flag, plus an observation log of the calls
made into the sqlite3 API: binds records each (index, value) passed to
sqlite3_bind_*, and reads records each column index passed to
sqlite3_column_*. -/
structure SqliteStatement where
  parameter_ : Nat
  column_ : Nat
  got_data_ : Bool
  binds : List (Nat × SqliteValue)
  reads : List Nat
deriving DecidableEq, Repr

/-- SqliteStatement::SqliteStatement (src/sqlite.cc lines 82 to 95):
parameter_, column_ and got_data_ start at zero/false; if sqlite3_prepare_v2
does not return SQLITE_OK, a runtime_error is thrown. -/
def mkSqliteStatement (r : PrepareResult) : Except SqliteError SqliteStatement :=
  if r.rc ≠ SQLITE_OK then Except.error SqliteError.prepareFailed
  else Except.ok ⟨0, 0, false, [], []⟩

/-- SqliteStatement::BindInt: sqlite3_bind_int(statement_, ++parameter_, value). -/
def SqliteStatement.BindInt (s : SqliteStatement) (value : Int) : SqliteStatement :=
  { s with parameter_ := s.parameter_ + 1,
           binds := s.binds ++ [(s.parameter_ + 1, SqliteValue.vint value)] }

/-- SqliteStatement::BindInt64: sqlite3_bind_int64(statement_, ++parameter_, value). -/
def SqliteStatement.BindInt64 (s : SqliteStatement) (value : Int) : SqliteStatement :=
  { s with parameter_ := s.parameter_ + 1,
           binds := s.binds ++ [(s.parameter_ + 1, SqliteValue.vint64 value)] }

/-- SqliteStatement::BindDouble: sqlite3_bind_double(statement_, ++parameter_, value). -/
def SqliteStatement.BindDouble (s : SqliteStatement) : SqliteStatement :=
  { s with parameter_ := s.parameter_ + 1,
           binds := s.binds ++ [(s.parameter_ + 1, SqliteValue.vdouble)] }

/-- SqliteStatement::BindText: sqlite3_bind_text(statement_, ++parameter_, ...). -/
def SqliteStatement.BindText (s : SqliteStatement) (value : String) : SqliteStatement :=
  { s with parameter_ := s.parameter_ + 1,
           binds := s.binds ++ [(s.parameter_ + 1, SqliteValue.vtext value)] }

/-- SqliteStatement::BindNull: sqlite3_bind_null(statement_, ++parameter_). -/
def SqliteStatement.BindNull (s : SqliteStatement) : SqliteStatement :=
  { s with parameter_ := s.parameter_ + 1,
           binds := s.binds ++ [(s.parameter_ + 1, SqliteValue.vnull)] }

/-- SqliteStatement::Into (all five overloads share this cursor behaviour,
src/sqlite.cc lines 128 to 174): read the column at index column_, then
increment column_. -/
def SqliteStatement.Into (s : SqliteStatement) : SqliteStatement :=
  { s with column_ := s.column_ + 1,
           reads := s.reads ++ [s.column_] }

/-- SqliteStatement::Execute (src/sqlite.cc lines 176 to 189): one call to
sqlite3_step; if the result code is neither SQLITE_ROW nor SQLITE_DONE it
throws; otherwise parameter_ and column_ are reset to zero and got_data_
records whether a row was produced. -/
def SqliteStatement.Execute (s : SqliteStatement) (stepRc : Int) :
    Except SqliteError SqliteStatement :=
  if stepRc ≠ SQLITE_ROW ∧ stepRc ≠ SQLITE_DONE then
    Except.error SqliteError.stepFailed
  else
    Except.ok { s with parameter_ := 0, column_ := 0,
                       got_data_ := decide (stepRc = SQLITE_ROW) }

/-- Dispatch a single bind call by value kind; each case is exactly the
corresponding Bind method of the source. -/
def SqliteStatement.BindOne (s : SqliteStatement) (v : SqliteValue) : SqliteStatement :=
  match v with
  | SqliteValue.vint x => s.BindInt x
  | SqliteValue.vint64 x => s.BindInt64 x
  | SqliteValue.vdouble => s.BindDouble
  | SqliteValue.vtext t => s.BindText t
  | SqliteValue.vnull => s.BindNull

/-- A sequence of bind calls in call order. -/
def SqliteStatement.BindAll (s : SqliteStatement) (vs : List SqliteValue) : SqliteStatement :=
  vs.foldl SqliteStatement.BindOne s

/-- A sequence of n Into calls in call order. -/
def SqliteStatement.IntoTimes (s : SqliteStatement) : Nat → SqliteStatement
  | 0 => s
  | n + 1 => SqliteStatement.IntoTimes s.Into n

/-- The positional bind log expected when binds start after parameter index p:
the k-th value of vs is bound at position p + k + 1. -/
def expectedBindLog (p : Nat) : List SqliteValue → List (Nat × SqliteValue)
  | [] => []
  | v :: vs => (p + 1, v) :: expectedBindLog (p + 1) vs

/-- The column read log expected when reads start at column c: columns
c, c + 1, ... are read in order. -/
def expectedReadLog (c : Nat) : Nat → List Nat
  | 0 => []
  | n + 1 => c :: expectedReadLog (c + 1) n

/-- A single bind call appends one log entry at the next positional index and
advances the parameter counter by one, leaving the column cursor alone. -/
theorem BindOne_effect (s : SqliteStatement) (v : SqliteValue) :
    (s.BindOne v).binds = s.binds ++ [(s.parameter_ + 1, v)] ∧
    (s.BindOne v).parameter_ = s.parameter_ + 1 ∧
    (s.BindOne v).column_ = s.column_ ∧
    (s.BindOne v).reads = s.reads := by
  cases v <;>
    simp [SqliteStatement.BindOne, SqliteStatement.BindInt,
      SqliteStatement.BindInt64, SqliteStatement.BindDouble,
      SqliteStatement.BindText, SqliteStatement.BindNull]

/-- A sequence of bind calls binds positions parameter_ + 1, parameter_ + 2,
... in call order. -/
theorem BindAll_log (vs : List SqliteValue) (s : SqliteStatement) :
    (s.BindAll vs).binds = s.binds ++ expectedBindLog s.parameter_ vs ∧
    (s.BindAll vs).parameter_ = s.parameter_ + vs.length := by
  induction vs generalizing s with
  | nil => simp [SqliteStatement.BindAll, expectedBindLog]
  | cons v vs ih =>
    have hone := BindOne_effect s v
    have hrest := ih (s.BindOne v)
    constructor
    · calc (s.BindAll (v :: vs)).binds
          = ((s.BindOne v).BindAll vs).binds := rfl
        _ = (s.BindOne v).binds ++ expectedBindLog (s.BindOne v).parameter_ vs :=
            (ih (s.BindOne v)).1
        _ = s.binds ++ expectedBindLog s.parameter_ (v :: vs) := by
            rw [hone.1, hone.2.1, expectedBindLog, List.append_assoc]
            rfl
    · calc (s.BindAll (v :: vs)).parameter_
          = ((s.BindOne v).BindAll vs).parameter_ := rfl
        _ = (s.BindOne v).parameter_ + vs.length := (ih (s.BindOne v)).2
        _ = s.parameter_ + (v :: vs).length := by rw [hone.2.1]; simp; omega

/-- A sequence of Into calls reads columns column_, column_ + 1, ... in call
order. -/
theorem IntoTimes_log (n : Nat) (s : SqliteStatement) :
    (s.IntoTimes n).reads = s.reads ++ expectedReadLog s.column_ n ∧
    (s.IntoTimes n).column_ = s.column_ + n := by
  induction n generalizing s with
  | zero => simp [SqliteStatement.IntoTimes, expectedReadLog]
  | succ n ih =>
    have hrest := ih s.Into
    constructor
    · calc (s.IntoTimes (n + 1)).reads
          = (s.Into.IntoTimes n).reads := rfl
        _ = s.Into.reads ++ expectedReadLog s.Into.column_ n := (ih s.Into).1
        _ = s.reads ++ expectedReadLog s.column_ (n + 1) := by
            simp [SqliteStatement.Into, expectedReadLog]
    · calc (s.IntoTimes (n + 1)).column_
          = (s.Into.IntoTimes n).column_ := rfl
        _ = s.Into.column_ + n := (ih s.Into).2
        _ = s.column_ + (n + 1) := by simp [SqliteStatement.Into]; omega

/-- C8: each persistence-boundary operation raises a fatal error exactly on a
data-access failure: Connect raises exactly when a database is already open or
the store cannot be opened (sqlite3_open not SQLITE_OK, or a null handle after
an OK open); statement construction raises exactly when sqlite3_prepare_v2
fails; Execute raises exactly when sqlite3_step returns neither SQLITE_ROW nor
SQLITE_DONE. Each operation consumes exactly one API-call result, so none of
these paths retries. -/
theorem persistence_error_exactly_on_failure
    (database_ : Option Nat) (r : OpenResult) (p : PrepareResult)
    (s : SqliteStatement) (stepRc : Int) :
    ((Connect database_ r).2.isSome ↔
      (database_.isSome ∨ r.rc ≠ SQLITE_OK ∨ r.handle = none)) ∧
    ((∃ e, mkSqliteStatement p = Except.error e) ↔ p.rc ≠ SQLITE_OK) ∧
    ((∃ e, s.Execute stepRc = Except.error e) ↔
      (stepRc ≠ SQLITE_ROW ∧ stepRc ≠ SQLITE_DONE)) := by
  refine ⟨?_, ?_, ?_⟩
  · simp only [Connect]
    split_ifs with h1 h2 h3 <;>
      simp_all [Option.isNone_iff_eq_none]
  · simp only [mkSqliteStatement]
    split_ifs with h <;> simp_all
  · simp only [SqliteStatement.Execute]
    split_ifs with h
    · exact iff_of_true ⟨SqliteError.stepFailed, rfl⟩ h
    · exact iff_of_false (by simp) h

/-- Witness for C8 at concrete inputs: with a database already open, Connect
reports an error. -/
theorem persistence_error_exactly_on_failure_witness :
    ((some 1 : Option Nat).isSome ∨ (0 : Int) ≠ SQLITE_OK ∨
      (some 2 : Option Nat) = none) ∧
    (Connect (some 1) ⟨0, some 2⟩).2.isSome :=
  ⟨Or.inl (by decide),
   (persistence_error_exactly_on_failure (some 1) ⟨0, some 2⟩ ⟨0, 3⟩
      ⟨0, 0, false, [], []⟩ 100).1.mpr (Or.inl (by decide))⟩

/-- C9: each bind call binds the next positional parameter in call order, each
Into call extracts the next column in call order, every successful Execute
resets both cursors to zero, and after a successful Execute a new bind/extract
cycle starts again from parameter position 1 and column 0. -/
theorem statement_cursor_discipline
    (s s2 : SqliteStatement) (vs : List SqliteValue) (n : Nat) (stepRc : Int) :
    ((s.BindAll vs).binds = s.binds ++ expectedBindLog s.parameter_ vs) ∧
    ((s.IntoTimes n).reads = s.reads ++ expectedReadLog s.column_ n) ∧
    (s.Execute stepRc = Except.ok s2 →
      s2.parameter_ = 0 ∧ s2.column_ = 0 ∧
      (s2.BindAll vs).binds = s2.binds ++ expectedBindLog 0 vs ∧
      (s2.IntoTimes n).reads = s2.reads ++ expectedReadLog 0 n) := by
  refine ⟨(BindAll_log vs s).1, (IntoTimes_log n s).1, ?_⟩
  intro hok
  have hs2 : s2.parameter_ = 0 ∧ s2.column_ = 0 := by
    by_cases h : stepRc ≠ SQLITE_ROW ∧ stepRc ≠ SQLITE_DONE
    · rw [SqliteStatement.Execute, if_pos h] at hok
      exact absurd hok (fun he => Except.noConfusion he)
    · rw [SqliteStatement.Execute, if_neg h] at hok
      rw [← Except.ok.inj hok]
      exact ⟨rfl, rfl⟩
  refine ⟨hs2.1, hs2.2, ?_, ?_⟩
  · have h := (BindAll_log vs s2).1
    rwa [hs2.1] at h
  · have h := (IntoTimes_log n s2).1
    rwa [hs2.2] at h

/-- Witness for C9 at a concrete input: a statement with stale cursors 5 and 7
is reset by a successful Execute (SQLITE_DONE), and the next cycle binds
position 1 and reads column 0. -/
theorem statement_cursor_discipline_witness :
    ((⟨5, 7, false, [], []⟩ : SqliteStatement).Execute 101 =
      Except.ok (⟨0, 0, false, [], []⟩ : SqliteStatement)) ∧
    ((⟨0, 0, false, [], []⟩ : SqliteStatement).parameter_ = 0 ∧
     (⟨0, 0, false, [], []⟩ : SqliteStatement).column_ = 0 ∧
     ((⟨0, 0, false, [], []⟩ : SqliteStatement).BindAll [SqliteValue.vnull]).binds =
       (⟨0, 0, false, [], []⟩ : SqliteStatement).binds ++
         expectedBindLog 0 [SqliteValue.vnull] ∧
     ((⟨0, 0, false, [], []⟩ : SqliteStatement).IntoTimes 1).reads =
       (⟨0, 0, false, [], []⟩ : SqliteStatement).reads ++ expectedReadLog 0 1) :=
  ⟨rfl,
   (statement_cursor_discipline ⟨5, 7, false, [], []⟩ ⟨0, 0, false, [], []⟩
      [SqliteValue.vnull] 1 101).2.2 rfl⟩

/-- C10: Connect is atomic in the connection state: with a database already
open it errors and leaves the connection unchanged; when sqlite3_open fails it
errors and leaves the handle null; on success the object holds the open
handle; and any failed Connect leaves either the old connection or a null
handle, never a half-open one. -/
theorem connect_state_atomicity (database_ : Option Nat) (r : OpenResult) :
    (database_.isSome →
      Connect database_ r = (database_, some SqliteError.alreadyOpen)) ∧
    (database_ = none → r.rc ≠ SQLITE_OK →
      Connect database_ r = (none, some SqliteError.openFailed)) ∧
    ((Connect database_ r).2 = none →
      database_ = none ∧ r.rc = SQLITE_OK ∧
      (Connect database_ r).1 = r.handle ∧ r.handle.isSome) ∧
    ((Connect database_ r).2.isSome →
      (Connect database_ r).1 = database_ ∨ (Connect database_ r).1 = none) := by
  refine ⟨?_, ?_, ?_, ?_⟩
  · intro h
    simp [Connect, h]
  · intro h1 h2
    simp [Connect, h1, h2]
  · intro h
    unfold Connect at h ⊢
    by_cases h1 : database_.isSome
    · rw [if_pos h1] at h
      exact absurd h (by simp)
    · rw [if_neg h1] at h ⊢
      by_cases h2 : r.rc ≠ SQLITE_OK
      · rw [if_pos h2] at h
        exact absurd h (by simp)
      · rw [if_neg h2] at h ⊢
        by_cases h3 : r.handle.isNone
        · rw [if_pos h3] at h
          exact absurd h (by simp)
        · rw [if_neg h3] at h ⊢
          refine ⟨Option.not_isSome_iff_eq_none.mp h1, not_not.mp h2, rfl, ?_⟩
          cases hh : r.handle with
          | none => exact absurd (by simp [hh]) h3
          | some a => simp [hh]
  · intro h
    unfold Connect at h ⊢
    by_cases h1 : database_.isSome
    · rw [if_pos h1]
      exact Or.inl rfl
    · rw [if_neg h1] at h ⊢
      by_cases h2 : r.rc ≠ SQLITE_OK
      · rw [if_pos h2]
        exact Or.inr rfl
      · rw [if_neg h2] at h ⊢
        by_cases h3 : r.handle.isNone
        · rw [if_pos h3]
          exact Or.inr (Option.isNone_iff_eq_none.mp h3)
        · rw [if_neg h3] at h
          exact absurd h (by simp)

/-- Witness for C10 at concrete inputs: Connect on an already-open database
errors and leaves the existing connection in place. -/
theorem connect_state_atomicity_witness :
    (some 3 : Option Nat).isSome ∧
    Connect (some 3) ⟨0, some 1⟩ = (some 3, some SqliteError.alreadyOpen) :=
  ⟨by decide, (connect_state_atomicity (some 3) ⟨0, some 1⟩).1 (by decide)⟩

/-! ## Prime basic-block matching step (src/flow_graph_match_basic_block_prime.h) -/

/-- A basic-block vertex identifier within one flow graph. -/
abbrev Vertex := Nat

/-- A vertex set: the still-unmatched vertices handed to a matching step, in
iteration order. -/
abbrev VertexSet := List Vertex

/-- The accessor view of a FlowGraph used by the matching step: per-vertex
instruction count, prime fingerprint, and whether the vertex already has a
fixed point (GetFixedPoint returning a null pointer is modelled as false).
The FlowGraph implementation is outside this source slice; the matching step
only calls these accessors. -/
structure FlowGraph where
  GetInstructionCount : Vertex → Nat
  GetPrime : Vertex → Nat
  GetFixedPoint : Vertex → Bool

/-- VertexIntMap, the fingerprint-to-vertex index (its declaration lives in
flow_graph_match.h, outside this slice; design §3 describes the candidate-key
index as a multimap from feature value to the vertices sharing it). Modelled
as a list of (fingerprint, vertex) entries. -/
abbrev VertexIntMap := List (Nat × Vertex)

/-- One loop iteration of GetUnmatchedBasicBlocksByPrime (src lines 39 to 44):
a vertex with no fixed point whose instruction count reaches
min_instructions_ is inserted under its prime fingerprint. -/
def indexVertex (min_instructions_ : Int) (flow_graph : FlowGraph)
    (m : VertexIntMap) (vertex : Vertex) : VertexIntMap :=
  if flow_graph.GetFixedPoint vertex = false ∧
      min_instructions_ ≤ (flow_graph.GetInstructionCount vertex : Int) then
    m ++ [(flow_graph.GetPrime vertex, vertex)]
  else m

/-- MatchingStepPrimeBasicBlock::GetUnmatchedBasicBlocksByPrime (src lines 35
to 45): clears the out-parameter basic_blocks_map, then indexes every
eligible vertex of the given vertex set by its prime fingerprint. -/
def GetUnmatchedBasicBlocksByPrime (min_instructions_ : Int)
    (flow_graph : FlowGraph) (vertices : VertexSet)
    (basic_blocks_map : VertexIntMap) : VertexIntMap :=
  vertices.foldl (indexVertex min_instructions_ flow_graph) []

/-- Membership in the fingerprint index built by folding indexVertex. -/
theorem mem_foldl_indexVertex (min_instructions_ : Int) (flow_graph : FlowGraph)
    (vertices : VertexSet) :
    ∀ (m : VertexIntMap) (k : Nat) (v : Vertex),
      (k, v) ∈ vertices.foldl (indexVertex min_instructions_ flow_graph) m ↔
        ((k, v) ∈ m ∨
          (v ∈ vertices ∧ flow_graph.GetFixedPoint v = false ∧
            min_instructions_ ≤ (flow_graph.GetInstructionCount v : Int) ∧
            k = flow_graph.GetPrime v)) := by
  induction vertices with
  | nil =>
    intro m k v
    simp
  | cons w ws ih =>
    intro m k v
    rw [List.foldl_cons, ih]
    unfold indexVertex
    by_cases hc : flow_graph.GetFixedPoint w = false ∧
        min_instructions_ ≤ (flow_graph.GetInstructionCount w : Int)
    · rw [if_pos hc]
      simp only [List.mem_append, List.mem_cons, List.not_mem_nil, or_false,
        Prod.mk.injEq]
      constructor
      · rintro ((hm | ⟨rfl, rfl⟩) | ⟨hvs, hrest⟩)
        · exact Or.inl hm
        · exact Or.inr ⟨Or.inl rfl, hc.1, hc.2, rfl⟩
        · exact Or.inr ⟨Or.inr hvs, hrest⟩
      · rintro (hm | ⟨hvw, hrest⟩)
        · exact Or.inl (Or.inl hm)
        · rcases hvw with rfl | hvs
          · exact Or.inl (Or.inr ⟨hrest.2.2, rfl⟩)
          · exact Or.inr ⟨hvs, hrest⟩
    · rw [if_neg hc]
      simp only [List.mem_cons]
      constructor
      · rintro (hm | ⟨hvs, hrest⟩)
        · exact Or.inl hm
        · exact Or.inr ⟨Or.inr hvs, hrest⟩
      · rintro (hm | ⟨hvw, hrest⟩)
        · exact Or.inl hm
        · rcases hvw with rfl | hvs
          · exact absurd ⟨hrest.1, hrest.2.1⟩ hc
          · exact Or.inr ⟨hvs, hrest⟩

/-- Membership in the index built by GetUnmatchedBasicBlocksByPrime. -/
theorem mem_getUnmatched (min_instructions_ : Int) (flow_graph : FlowGraph)
    (vertices : VertexSet) (basic_blocks_map : VertexIntMap) (k : Nat)
    (v : Vertex) :
    (k, v) ∈ GetUnmatchedBasicBlocksByPrime min_instructions_ flow_graph
        vertices basic_blocks_map ↔
      (v ∈ vertices ∧ flow_graph.GetFixedPoint v = false ∧
        min_instructions_ ≤ (flow_graph.GetInstructionCount v : Int) ∧
        k = flow_graph.GetPrime v) := by
  rw [GetUnmatchedBasicBlocksByPrime,
    mem_foldl_indexVertex min_instructions_ flow_graph vertices [] k v]
  simp

/-- C4: the fingerprint index built by GetUnmatchedBasicBlocksByPrime holds an
entry (GetPrime v, v) exactly for the vertices of the given set that have no
fixed point and whose instruction count reaches min_instructions_; the
out-parameter is cleared on entry, so the result never depends on a map left
over from an earlier invocation. -/
theorem getUnmatched_index_characterization (min_instructions_ : Int)
    (flow_graph : FlowGraph) (vertices : VertexSet)
    (basic_blocks_map : VertexIntMap) (k : Nat) (v : Vertex) :
    ((k, v) ∈ GetUnmatchedBasicBlocksByPrime min_instructions_ flow_graph
        vertices basic_blocks_map ↔
      (v ∈ vertices ∧ flow_graph.GetFixedPoint v = false ∧
        min_instructions_ ≤ (flow_graph.GetInstructionCount v : Int) ∧
        k = flow_graph.GetPrime v)) ∧
    GetUnmatchedBasicBlocksByPrime min_instructions_ flow_graph vertices
        basic_blocks_map =
      GetUnmatchedBasicBlocksByPrime min_instructions_ flow_graph vertices [] :=
  ⟨mem_getUnmatched min_instructions_ flow_graph vertices basic_blocks_map k v,
   rfl⟩

/-- Witness for C4 at concrete inputs: with threshold 1, a fixed-point-free
vertex 4 with 3 instructions and prime 11 is indexed, also when the
out-parameter held stale entries. -/
theorem getUnmatched_index_characterization_witness :
    ((4 : Vertex) ∈ [(4 : Vertex)] ∧
      (⟨fun _ => 3, fun _ => 11, fun _ => false⟩ : FlowGraph).GetFixedPoint 4 =
        false ∧
      (1 : Int) ≤ ((⟨fun _ => 3, fun _ => 11, fun _ => false⟩ :
        FlowGraph).GetInstructionCount 4 : Int) ∧
      (11 : Nat) = (⟨fun _ => 3, fun _ => 11, fun _ => false⟩ :
        FlowGraph).GetPrime 4) ∧
    (11, (4 : Vertex)) ∈ GetUnmatchedBasicBlocksByPrime 1
      ⟨fun _ => 3, fun _ => 11, fun _ => false⟩ [4] [(9, 9)] :=
  ⟨⟨by decide, rfl, by decide, rfl⟩,
   (getUnmatched_index_characterization 1
      ⟨fun _ => 3, fun _ => 11, fun _ => false⟩ [4] [(9, 9)] 11 4).1.mpr
     ⟨by decide, rfl, by decide, rfl⟩⟩

/-- Modelled from the spec: the vertices a fingerprint index associates with a
fingerprint (the multimap bucket of design §3). -/
def verticesWithPrime (m : VertexIntMap) (k : Nat) : List Vertex :=
  (m.filter (fun e => e.1 == k)).map Prod.snd

/-- Modelled from the spec: FindFixedPointsBasicBlockInternal is declared in
flow_graph_match.h, which is not part of this source slice. Design §4.2 steps
4 and 5: for every fingerprint, if it identifies exactly one eligible vertex
on each side, the pair is accepted; ambiguous fingerprints (several vertices
sharing the fingerprint on either side) are skipped. Returns the accepted
(fingerprint, primary vertex, secondary vertex) triples. -/
def FindFixedPointsBasicBlockInternal (m1 m2 : VertexIntMap) :
    List (Nat × Vertex × Vertex) :=
  (m1.map Prod.fst).dedup.filterMap (fun k =>
    if (verticesWithPrime m1 k).length = 1 ∧
        (verticesWithPrime m2 k).length = 1 then
      some (k, (verticesWithPrime m1 k).getD 0 0,
        (verticesWithPrime m2 k).getD 0 0)
    else none)

/-- MatchingStepPrimeBasicBlock::FindFixedPoints (src lines 21 to 32): builds
the two fingerprint indices from the unmatched vertex sets and hands them to
FindFixedPointsBasicBlockInternal. -/
def FindFixedPoints (min_instructions_ : Int) (primary secondary : FlowGraph)
    (vertices1 vertices2 : VertexSet) : List (Nat × Vertex × Vertex) :=
  FindFixedPointsBasicBlockInternal
    (GetUnmatchedBasicBlocksByPrime min_instructions_ primary vertices1 [])
    (GetUnmatchedBasicBlocksByPrime min_instructions_ secondary vertices2 [])

/-- A list of length one is the singleton of its first element. -/
theorem list_eq_singleton_of_length_one (l : List Vertex) (h : l.length = 1) :
    l = [l.getD 0 0] := by
  cases l with
  | nil => simp at h
  | cons a t =>
    cases t with
    | nil => rfl
    | cons b t2 => simp at h

/-- An accepted triple of the internal pairing pins both buckets down to
singletons. -/
theorem internal_pair_unique (m1 m2 : VertexIntMap) (k : Nat) (v1 v2 : Vertex)
    (hmem : (k, v1, v2) ∈ FindFixedPointsBasicBlockInternal m1 m2) :
    verticesWithPrime m1 k = [v1] ∧ verticesWithPrime m2 k = [v2] := by
  rw [FindFixedPointsBasicBlockInternal, List.mem_filterMap] at hmem
  obtain ⟨a, ha, hfa⟩ := hmem
  by_cases hc : (verticesWithPrime m1 a).length = 1 ∧
      (verticesWithPrime m2 a).length = 1
  · rw [if_pos hc] at hfa
    obtain ⟨hk, hv⟩ := Prod.mk.injEq .. ▸ Option.some.inj hfa
    obtain ⟨hv1, hv2⟩ := Prod.mk.injEq .. ▸ hv
    subst hk
    constructor
    · rw [list_eq_singleton_of_length_one _ hc.1, hv1]
    · rw [list_eq_singleton_of_length_one _ hc.2, hv2]
  · rw [if_neg hc] at hfa
    exact Option.noConfusion hfa

/-- A vertex listed in a fingerprint bucket is an entry of the index under
that fingerprint. -/
theorem mem_of_mem_verticesWithPrime (m : VertexIntMap) (k : Nat) (v : Vertex)
    (h : v ∈ verticesWithPrime m k) : (k, v) ∈ m := by
  rw [verticesWithPrime] at h
  obtain ⟨e, hmem, hsnd⟩ := List.mem_map.mp h
  obtain ⟨hm, hfst⟩ := List.mem_filter.mp hmem
  have hk : e.1 = k := by simpa using hfst
  have : e = (k, v) := by
    cases e
    simp only at hk hsnd
    rw [hk, hsnd]
  rwa [this] at hm

/-- C2: the prime heuristic accepts a pair only when the fingerprint
identifies exactly one eligible vertex on each side; a fingerprint with two
or more unmatched vertices on either side yields no match in that
invocation. -/
theorem prime_ambiguity_deferral (m1 m2 : VertexIntMap) (k : Nat) :
    (∀ v1 v2, (k, v1, v2) ∈ FindFixedPointsBasicBlockInternal m1 m2 →
      verticesWithPrime m1 k = [v1] ∧ verticesWithPrime m2 k = [v2]) ∧
    (2 ≤ (verticesWithPrime m1 k).length ∨
        2 ≤ (verticesWithPrime m2 k).length →
      ∀ v1 v2, (k, v1, v2) ∉ FindFixedPointsBasicBlockInternal m1 m2) := by
  refine ⟨fun v1 v2 h => internal_pair_unique m1 m2 k v1 v2 h, ?_⟩
  intro hamb v1 v2 hmem
  obtain ⟨h1, h2⟩ := internal_pair_unique m1 m2 k v1 v2 hmem
  rcases hamb with h | h
  · rw [h1] at h
    simp at h
  · rw [h2] at h
    simp at h

/-- Witness for C2 at concrete inputs: fingerprint 5 is ambiguous on the
primary side (vertices 1 and 2), so no pair is emitted for it even though the
secondary side is unique. -/
theorem prime_ambiguity_deferral_witness :
    2 ≤ (verticesWithPrime [(5, 1), (5, 2)] 5).length ∧
    (5, 1, 9) ∉ FindFixedPointsBasicBlockInternal [(5, 1), (5, 2)] [(5, 9)] :=
  ⟨by decide,
   (prime_ambiguity_deferral [(5, 1), (5, 2)] [(5, 9)] 5).2
     (Or.inl (by decide)) 1 9⟩

/-- C3: a vertex whose instruction count is strictly below min_instructions_
is never indexed by GetUnmatchedBasicBlocksByPrime and never appears in any
pair proposed by the step, on either side, whatever its fingerprint is. -/
theorem prime_applicability_filter (min_instructions_ : Int)
    (primary secondary : FlowGraph) (vertices1 vertices2 : VertexSet)
    (v : Vertex) :
    (((primary.GetInstructionCount v : Int) < min_instructions_ →
      (∀ k, (k, v) ∉ GetUnmatchedBasicBlocksByPrime min_instructions_ primary
        vertices1 []) ∧
      ∀ k v2, (k, v, v2) ∉ FindFixedPoints min_instructions_ primary secondary
        vertices1 vertices2)) ∧
    (((secondary.GetInstructionCount v : Int) < min_instructions_ →
      (∀ k, (k, v) ∉ GetUnmatchedBasicBlocksByPrime min_instructions_
        secondary vertices2 []) ∧
      ∀ k v1, (k, v1, v) ∉ FindFixedPoints min_instructions_ primary secondary
        vertices1 vertices2)) := by
  constructor
  · intro hlt
    have hidx : ∀ k, (k, v) ∉ GetUnmatchedBasicBlocksByPrime min_instructions_
        primary vertices1 [] := by
      intro k hmem
      have h := (mem_getUnmatched min_instructions_ primary vertices1 [] k
        v).mp hmem
      exact absurd h.2.2.1 (not_le.mpr hlt)
    refine ⟨hidx, ?_⟩
    intro k v2 hmem
    have huniq := internal_pair_unique _ _ k v v2 hmem
    have hv : v ∈ verticesWithPrime
        (GetUnmatchedBasicBlocksByPrime min_instructions_ primary vertices1 [])
        k := by
      rw [huniq.1]
      exact List.mem_singleton_self v
    exact hidx k (mem_of_mem_verticesWithPrime _ k v hv)
  · intro hlt
    have hidx : ∀ k, (k, v) ∉ GetUnmatchedBasicBlocksByPrime min_instructions_
        secondary vertices2 [] := by
      intro k hmem
      have h := (mem_getUnmatched min_instructions_ secondary vertices2 [] k
        v).mp hmem
      exact absurd h.2.2.1 (not_le.mpr hlt)
    refine ⟨hidx, ?_⟩
    intro k v1 hmem
    have huniq := internal_pair_unique _ _ k v1 v hmem
    have hv : v ∈ verticesWithPrime
        (GetUnmatchedBasicBlocksByPrime min_instructions_ secondary vertices2
          [])
        k := by
      rw [huniq.2]
      exact List.mem_singleton_self v
    exact hidx k (mem_of_mem_verticesWithPrime _ k v hv)

/-- Witness for C3 at concrete inputs: with threshold 2, a one-instruction
primary vertex 0 is neither indexed under its prime 42 nor paired with the
eligible secondary vertex 1, which carries the same prime. -/
theorem prime_applicability_filter_witness :
    ((⟨fun _ => 1, fun _ => 42, fun _ => false⟩ :
        FlowGraph).GetInstructionCount 0 : Int) < 2 ∧
    (42, (0 : Vertex)) ∉ GetUnmatchedBasicBlocksByPrime 2
      ⟨fun _ => 1, fun _ => 42, fun _ => false⟩ [0] [] ∧
    (42, (0 : Vertex), (1 : Vertex)) ∉ FindFixedPoints 2
      ⟨fun _ => 1, fun _ => 42, fun _ => false⟩
      ⟨fun _ => 3, fun _ => 42, fun _ => false⟩ [0] [1] :=
  ⟨by decide,
   ((prime_applicability_filter 2 ⟨fun _ => 1, fun _ => 42, fun _ => false⟩
      ⟨fun _ => 3, fun _ => 42, fun _ => false⟩ [0] [1] 0).1 (by decide)).1 42,
   ((prime_applicability_filter 2 ⟨fun _ => 1, fun _ => 42, fun _ => false⟩
      ⟨fun _ => 3, fun _ => 42, fun _ => false⟩ [0] [1] 0).1
     (by decide)).2 42 1⟩

/-- A constructed MatchingStepPrimeBasicBlock: the display name handed to the
MatchingStepFlowGraph base and the stored threshold. -/
structure MatchingStepPrimeBasicBlock where
  name : String
  min_instructions_ : Int
deriving DecidableEq, Repr

/-- MatchingStepPrimeBasicBlock::MatchingStepPrimeBasicBlock (src lines 15 to
19): absl::StrCat embeds the threshold in the display name and the threshold
is stored; the constructor has no validation and no failure path. -/
def mkMatchingStepPrimeBasicBlock (min_instructions : Int) :
    MatchingStepPrimeBasicBlock where
  name := "basicBlock: prime matching (" ++ toString min_instructions ++
    " instructions minimum)"
  min_instructions_ := min_instructions

/-- C7 counterexample: constructing the prime matching step with the invalid
thresholds -1 and 0 is not rejected; construction succeeds and records the
invalid threshold just as it would a valid one. -/
theorem prime_step_construction_unvalidated :
    (mkMatchingStepPrimeBasicBlock (-1)).min_instructions_ = -1 ∧
    (mkMatchingStepPrimeBasicBlock 0).min_instructions_ = 0 :=
  ⟨rfl, rfl⟩

/-- C7 amended: construction never validates the threshold; for every
threshold value, valid or not, it succeeds, records that threshold and embeds
it in the step's display name. -/
theorem prime_step_construction_total (min_instructions : Int) :
    (mkMatchingStepPrimeBasicBlock min_instructions).min_instructions_ =
      min_instructions ∧
    (mkMatchingStepPrimeBasicBlock min_instructions).name =
      "basicBlock: prime matching (" ++ toString min_instructions ++
        " instructions minimum)" :=
  ⟨rfl, rfl⟩

/-! ## Prime-product fingerprint (FlowGraph::GetPrime) -/

/-- Modelled from the spec: FlowGraph::GetPrime is implemented in
flow_graph.cc, outside this source slice. Design §4.2 step 2: each instruction
is mapped to a fixed prime number keyed by its coarse instruction class, and
the block fingerprint is the product of its instructions' primes. classPrime
is the per-class prime table; a basic block is its instruction-class
sequence. -/
def GetPrimeOfBlock {α : Type} (classPrime : α → Nat) (block : List α) : Nat :=
  (block.map classPrime).prod

/-- C5: with distinct primes per instruction class, the prime-product
fingerprint is invariant under every permutation of the instruction sequence,
and changing the class of any single instruction changes the fingerprint. -/
theorem prime_product_invariance (α : Type) (classPrime : α → Nat)
    (hprime : ∀ c, Nat.Prime (classPrime c))
    (hinj : ∀ c1 c2, classPrime c1 = classPrime c2 → c1 = c2) :
    (∀ b1 b2 : List α, b1.Perm b2 →
      GetPrimeOfBlock classPrime b1 = GetPrimeOfBlock classPrime b2) ∧
    (∀ (l1 l2 : List α) (c c2 : α), c ≠ c2 →
      GetPrimeOfBlock classPrime (l1 ++ c :: l2) ≠
        GetPrimeOfBlock classPrime (l1 ++ c2 :: l2)) := by
  constructor
  · intro b1 b2 hp
    exact List.Perm.prod_eq (hp.map classPrime)
  · intro l1 l2 c c2 hne heq
    apply hne
    apply hinj
    rw [GetPrimeOfBlock, GetPrimeOfBlock, List.map_append, List.map_cons,
      List.map_append, List.map_cons, List.prod_append, List.prod_cons,
      List.prod_append, List.prod_cons] at heq
    have hpos : ∀ l : List α, 0 < (l.map classPrime).prod := by
      intro l
      apply List.prod_pos
      intro x hx
      obtain ⟨c3, _, rfl⟩ := List.mem_map.mp hx
      exact (hprime c3).pos
    have h1 := Nat.eq_of_mul_eq_mul_left (hpos l1) heq
    exact Nat.eq_of_mul_eq_mul_right (hpos l2) h1

/-- A concrete three-class prime table for the C5 witness. -/
def demoClassPrime (c : Fin 3) : Nat := [2, 3, 5].get c

/-- Witness for C5 at concrete inputs: reordering the three-class block
0,1,2 keeps the fingerprint, while swapping the class of the second
instruction of the block 0,1 changes it. -/
theorem prime_product_invariance_witness :
    GetPrimeOfBlock demoClassPrime [0, 1, 2] =
      GetPrimeOfBlock demoClassPrime [2, 0, 1] ∧
    GetPrimeOfBlock demoClassPrime [0, 1] ≠
      GetPrimeOfBlock demoClassPrime [0, 2] :=
  ⟨(prime_product_invariance (Fin 3) demoClassPrime (by decide)
      (by decide)).1 [0, 1, 2] [2, 0, 1] (by decide),
   (prime_product_invariance (Fin 3) demoClassPrime (by decide)
      (by decide)).2 [0] [] 1 2 (by decide)⟩

/-! ## Matching-run invariant (Fixed Point and unmatched Vertex Sets) -/

/-- Modelled from the spec: the FixedPoint container and the Driver's match
acceptance live outside this slice. Design §2 and §3: the state of one
matching run over one function pair is the two unmatched Vertex Sets and the
Fixed Point correspondence accumulated so far. -/
structure MatchRunState where
  unmatched1 : Finset Nat
  unmatched2 : Finset Nat
  fixed_point : List (Nat × Nat)

/-- Modelled from the spec: accepting one proposed correspondence (design §2
and §4.1): a pair is accepted only when both vertices are still unmatched;
an accepted match is written into the Fixed Point and removed from both
unmatched sets; otherwise the proposal is dropped. -/
def AcceptMatch (s : MatchRunState) (v w : Nat) : MatchRunState :=
  if v ∈ s.unmatched1 ∧ w ∈ s.unmatched2 then
    ⟨s.unmatched1.erase v, s.unmatched2.erase w, (v, w) :: s.fixed_point⟩
  else s

/-- The state at the start of a run: every vertex unmatched, empty Fixed
Point. -/
def InitialRunState (V1 V2 : Finset Nat) : MatchRunState := ⟨V1, V2, []⟩

/-- A matching run: all proposals accepted (through the guard) in order,
across all heuristic invocations of the run. -/
def RunMatches (s : MatchRunState) (proposals : List (Nat × Nat)) :
    MatchRunState :=
  proposals.foldl (fun t p => AcceptMatch t p.1 p.2) s

/-- The §3 invariant: unmatched sets stay inside their vertex universes, a
vertex is unmatched exactly when it has no entry in the Fixed Point, and the
correspondence is injective in both directions. -/
def ConsistentState (V1 V2 : Finset Nat) (s : MatchRunState) : Prop :=
  s.unmatched1 ⊆ V1 ∧ s.unmatched2 ⊆ V2 ∧
  (∀ v ∈ V1, (v ∈ s.unmatched1 ↔ ∀ w, (v, w) ∉ s.fixed_point)) ∧
  (∀ w ∈ V2, (w ∈ s.unmatched2 ↔ ∀ v, (v, w) ∉ s.fixed_point)) ∧
  (∀ v w w2, (v, w) ∈ s.fixed_point → (v, w2) ∈ s.fixed_point → w = w2) ∧
  (∀ v v2 w, (v, w) ∈ s.fixed_point → (v2, w) ∈ s.fixed_point → v = v2)

/-- Accepting one proposal preserves the invariant. -/
theorem acceptMatch_preserves (V1 V2 : Finset Nat) (s : MatchRunState)
    (v w : Nat) (h : ConsistentState V1 V2 s) :
    ConsistentState V1 V2 (AcceptMatch s v w) := by
  obtain ⟨hsub1, hsub2, hiff1, hiff2, hinj1, hinj2⟩ := h
  unfold AcceptMatch
  by_cases hg : v ∈ s.unmatched1 ∧ w ∈ s.unmatched2
  · rw [if_pos hg]
    obtain ⟨hv, hw⟩ := hg
    have hvnone : ∀ w2, (v, w2) ∉ s.fixed_point := (hiff1 v (hsub1 hv)).mp hv
    have hwnone : ∀ v2, (v2, w) ∉ s.fixed_point := (hiff2 w (hsub2 hw)).mp hw
    refine ⟨?_, ?_, ?_, ?_, ?_, ?_⟩
    · exact (Finset.erase_subset v s.unmatched1).trans hsub1
    · exact (Finset.erase_subset w s.unmatched2).trans hsub2
    · intro x hx
      constructor
      · intro hxe w2 hmem
        rcases List.mem_cons.mp hmem with he | hold
        · exact Finset.ne_of_mem_erase hxe (Prod.ext_iff.mp he).1
        · exact (hiff1 x hx).mp (Finset.mem_of_mem_erase hxe) w2 hold
      · intro hnone
        refine Finset.mem_erase.mpr ⟨?_, ?_⟩
        · intro he
          exact hnone w (by rw [he]; exact List.mem_cons_self ..)
        · refine (hiff1 x hx).mpr ?_
          intro w2 hold
          exact hnone w2 (List.mem_cons_of_mem _ hold)
    · intro x hx
      constructor
      · intro hxe v2 hmem
        rcases List.mem_cons.mp hmem with he | hold
        · exact Finset.ne_of_mem_erase hxe (Prod.ext_iff.mp he).2
        · exact (hiff2 x hx).mp (Finset.mem_of_mem_erase hxe) v2 hold
      · intro hnone
        refine Finset.mem_erase.mpr ⟨?_, ?_⟩
        · intro he
          exact hnone v (by rw [he]; exact List.mem_cons_self ..)
        · refine (hiff2 x hx).mpr ?_
          intro v2 hold
          exact hnone v2 (List.mem_cons_of_mem _ hold)
    · intro a b b2 hmem hmem2
      rcases List.mem_cons.mp hmem with he | hold
      · rcases List.mem_cons.mp hmem2 with he2 | hold2
        · have hb : b = w := congrArg Prod.snd he
          have hb2 : b2 = w := congrArg Prod.snd he2
          rw [hb, hb2]
        · have ha : a = v := congrArg Prod.fst he
          rw [ha] at hold2
          exact absurd hold2 (hvnone b2)
      · rcases List.mem_cons.mp hmem2 with he2 | hold2
        · have ha : a = v := congrArg Prod.fst he2
          rw [ha] at hold
          exact absurd hold (hvnone b)
        · exact hinj1 a b b2 hold hold2
    · intro a a2 b hmem hmem2
      rcases List.mem_cons.mp hmem with he | hold
      · rcases List.mem_cons.mp hmem2 with he2 | hold2
        · have ha : a = v := congrArg Prod.fst he
          have ha2 : a2 = v := congrArg Prod.fst he2
          rw [ha, ha2]
        · have hb : b = w := congrArg Prod.snd he
          rw [hb] at hold2
          exact absurd hold2 (hwnone a2)
      · rcases List.mem_cons.mp hmem2 with he2 | hold2
        · have hb : b = w := congrArg Prod.snd he2
          rw [hb] at hold
          exact absurd hold (hwnone a)
        · exact hinj2 a a2 b hold hold2
  · rw [if_neg hg]
    exact ⟨hsub1, hsub2, hiff1, hiff2, hinj1, hinj2⟩

/-- C1: every Fixed Point produced or extended during a matching run is
injective in both directions, and at every point of the run a vertex is in
its flow graph's unmatched Vertex Set exactly when it has no entry in the
Fixed Point. -/
theorem matching_run_invariant (V1 V2 : Finset Nat)
    (proposals : List (Nat × Nat)) :
    ConsistentState V1 V2 (RunMatches (InitialRunState V1 V2) proposals) := by
  have hstep : ∀ (ps : List (Nat × Nat)) (s : MatchRunState),
      ConsistentState V1 V2 s → ConsistentState V1 V2 (RunMatches s ps) := by
    intro ps
    induction ps with
    | nil => exact fun s h => h
    | cons p ps ih =>
      intro s h
      exact ih (AcceptMatch s p.1 p.2)
        (acceptMatch_preserves V1 V2 s p.1 p.2 h)
  apply hstep
  refine ⟨subset_rfl, subset_rfl, ?_, ?_, ?_, ?_⟩ <;>
    simp [InitialRunState]

/-! ## Driver termination -/

/-- Modelled from the spec: the Matching Pipeline Driver (design §4.3) is
outside this slice. The unmatched vertex sets of one function pair as seen
between two passes over the ordered heuristic catalogue. -/
structure PassState where
  un1 : Finset Nat
  un2 : Finset Nat

/-- Modelled from the spec: the contract one full catalogue pass satisfies
(design §2, §3): the unmatched sets only shrink, and they shrink in lockstep
because every accepted match removes exactly one vertex from each side. -/
def GoodPass (pass : PassState → PassState) : Prop :=
  ∀ s, (pass s).un1 ⊆ s.un1 ∧ (pass s).un2 ⊆ s.un2 ∧
    s.un1.card - (pass s).un1.card = s.un2.card - (pass s).un2.card

/-- The number of new matches one pass reports on a state: the number of
vertices it removes from the primary unmatched set. -/
def newMatches (pass : PassState → PassState) (s : PassState) : Nat :=
  s.un1.card - (pass s).un1.card

/-- C6: for every initial pair of unmatched vertex sets, the Driver reaches a
pass reporting zero new matches after at most card un1 + card un2 earlier
passes, so its repeat-until-no-progress loop always terminates within that
bound. -/
theorem driver_converges (pass : PassState → PassState) (hp : GoodPass pass)
    (s : PassState) :
    ∃ n ≤ s.un1.card + s.un2.card, newMatches pass (pass^[n] s) = 0 := by
  suffices h : ∀ (k : Nat) (t : PassState), t.un1.card ≤ k →
      ∃ n ≤ t.un1.card, newMatches pass (pass^[n] t) = 0 by
    obtain ⟨n, hn, hzero⟩ := h s.un1.card s le_rfl
    exact ⟨n, hn.trans (Nat.le_add_right ..), hzero⟩
  intro k
  induction k with
  | zero =>
    intro t ht
    refine ⟨0, Nat.zero_le _, ?_⟩
    simp only [Function.iterate_zero, id]
    have hle : (pass t).un1.card ≤ t.un1.card :=
      Finset.card_le_card (hp t).1
    unfold newMatches
    omega
  | succ k ih =>
    intro t ht
    by_cases hz : newMatches pass t = 0
    · exact ⟨0, Nat.zero_le _, by simpa using hz⟩
    · have hle : (pass t).un1.card ≤ t.un1.card :=
        Finset.card_le_card (hp t).1
      have hlt : (pass t).un1.card < t.un1.card := by
        unfold newMatches at hz
        omega
      obtain ⟨n, hn, hzero⟩ := ih (pass t) (by omega)
      refine ⟨n + 1, by omega, ?_⟩
      rw [Function.iterate_succ_apply]
      exact hzero

/-- Witness for C6 at a concrete input: the identity pass (no heuristic makes
progress) satisfies the pass contract, and convergence is reached within the
bound on the sets with vertices 1, 2 and 3. -/
theorem driver_converges_witness :
    ∃ n ≤ ({1, 2} : Finset Nat).card + ({3} : Finset Nat).card,
      newMatches id (id^[n] (PassState.mk {1, 2} {3})) = 0 :=
  driver_converges id (fun t => ⟨subset_rfl, subset_rfl, by simp⟩) ⟨{1, 2}, {3}⟩
